import Mathlib

/-!
# Verification of the `musix` audio core

A shallow embedding of the audio engine of the `musix` multitrack audio
workstation, together with proofs checking its natural-language
specification against the code.

Modelling conventions:
* Rust `f32` / `f64` sample and tempo values become exact rationals (`Rat`);
  the rounding operations the code performs explicitly (`round`, `floor`,
  integer casts) are modelled explicitly.
* Rust `Vec<f32>` becomes `List Rat`; `HashMap` becomes an association list
  with insert-overwrite semantics (`mapInsert` / `List.lookup`).
* A Rust panic (out-of-bounds index, `HashMap` index on a missing key,
  division or remainder by zero, `usize` underflow) is modelled by `Option`:
  `none` means the audio callback aborts.
* Machine-integer casts follow Rust semantics: float-to-int `as` casts
  saturate, int-to-int `as` casts wrap (release-mode arithmetic).
-/

namespace Musix

/-- Rust `f64::round`: round half away from zero (the arguments the code
rounds are non-negative, where this agrees with round-half-up). -/
def ratRound (x : Rat) : Int :=
  if 0 ≤ x then ⌊x + 1/2⌋ else ⌈x - 1/2⌉

/-- Rust float-to-`u32` `as` cast: truncate toward zero, saturating at the
bounds; negative values go to `0`. -/
def castU32 (x : Rat) : Nat :=
  min (max 0 ⌊x⌋).toNat (2 ^ 32 - 1)

/-- Rust float truncation toward zero (the integral part of an `as i64`
cast). -/
def ratTrunc (x : Rat) : Int :=
  if 0 ≤ x then ⌊x⌋ else ⌈x⌉

/-- Rust float-to-`i64` `as` cast: truncate toward zero, saturating. -/
def castI64 (x : Rat) : Int :=
  min (max (-(2 ^ 63)) (ratTrunc x)) (2 ^ 63 - 1)

/-- Rust `x % y` on `f64` (truncated remainder), for the finite
non-degenerate cases the engine exercises. -/
def fmodTrunc (x y : Rat) : Rat :=
  x - y * (ratTrunc (x / y))

/-- `HashMap::insert` on an association list: the new binding shadows and
replaces any previous binding of the key. -/
def mapInsert {α : Type} (m : List (Nat × α)) (k : Nat) (v : α) : List (Nat × α) :=
  (k, v) :: m.filter (fun p => p.1 ≠ k)

/-- `HashMap::remove` on an association list. -/
def mapRemove {α : Type} (m : List (Nat × α)) (k : Nat) : List (Nat × α) :=
  m.filter (fun p => p.1 ≠ k)

/-! ## Clip buffers (`src/audio_clip.rs`, `src/audio_source.rs`) -/

/-- `src/audio_source.rs`: `AudioSourceFormat`. -/
structure AudioSourceFormat where
  sample_rate : Nat
  len_frames : Nat
  channels : Nat
  beats_per_second : Rat
  deriving Repr, DecidableEq

/-- `src/audio_clip.rs`: `AudioClip` — interleaved samples plus format.
The `AudioSource` enum of `src/audio_source.rs` has `AudioClip` as its only
variant, so sources are modelled directly as clips. -/
structure AudioClip where
  format : AudioSourceFormat
  samples : List Rat
  deriving Repr, DecidableEq

namespace AudioClip

/-- `AudioClip::empty`. -/
def empty (format : AudioSourceFormat) : AudioClip :=
  { format := format, samples := [] }

/-- `AudioClip::append_sample`: push one sample, recompute `len_frames`.
(The Rust `u32` division panics when `channels = 0`; the engine only
constructs clips with the positive device channel count.) -/
def append_sample (c : AudioClip) (sample : Rat) : AudioClip :=
  let samples := c.samples ++ [sample]
  { c with
    samples := samples
    format := { c.format with len_frames := samples.length / c.format.channels } }

/-- `AudioClip::len_samples`. -/
def len_samples (c : AudioClip) : Nat :=
  c.samples.length

/-- The fade loop of `AudioClip::clean`, iterations `i, i+1, ..` with `fuel`
iterations left before `i` reaches `sample_fraction`:
`for i in 0..sample_fraction { samples[i] *= i/fraction; samples[len-i-1] *= i/fraction }`.
`none` models the panic when `samples[i]` is out of bounds (in Rust this
also covers the subsequent `len - i - 1` underflow, as `i < len` fails
first). `len` is the length captured before the loop; `set` preserves it. -/
def fadeIterAux (fraction len : Nat) : Nat → Nat → List Rat → Option (List Rat)
  | 0, _i, s => some s
  | fuel + 1, i, s =>
    if i < len then
      let modulate : Rat := (i : Rat) / (fraction : Rat)
      let s1 := s.set i (s.getD i 0 * modulate)
      let s2 := s1.set (len - i - 1) (s1.getD (len - i - 1) 0 * modulate)
      fadeIterAux fraction len fuel (i + 1) s2
    else
      none

/-- The fade loop of `AudioClip::clean`, started at `i = 0`. -/
def fadeLoop (fraction len : Nat) (s : List Rat) : Option (List Rat) :=
  fadeIterAux fraction len fraction 0 s

/-- `AudioClip::clean`: truncate to a whole frame, then run the fade loop on
both ends.  The leading `channels = 0` test models the Rust panic of
`len % 0`. -/
def clean (c : AudioClip) : Option AudioClip :=
  if c.format.channels = 0 then none
  else
    let len0 := c.samples.length
    let samples := c.samples.take (len0 - len0 % c.format.channels)
    let sample_fraction := c.format.sample_rate / 100
    (fadeLoop sample_fraction samples.length samples).map
      (fun s => { c with samples := s })

/-- `AudioClip::get_sample`: nearest-neighbour resampled read.  The
`.round() as usize` cast sends negative values to `0`, which `Int.toNat`
matches. -/
def get_sample (c : AudioClip) (frame channel : Nat) (beats_per_second : Rat) :
    Option Rat :=
  c.samples.get?
    (ratRound (((frame * c.format.channels + channel : Nat) : Rat) *
        (beats_per_second / c.format.beats_per_second))).toNat

end AudioClip

/-! ## Arrangement tracks (`src/arrangement.rs`) -/

/-- `src/arrangement.rs`: `Block` (the druid-specific colour field of the
referenced `AudioBlock` is out of the core). `bounds` is a half-open
`Range<usize>`, embedded as its two endpoints. -/
structure Block where
  bounds_start : Nat
  bounds_stop : Nat
  audio_id : Nat
  audio_block_id : Nat
  deriving Repr, DecidableEq

/-- `src/arrangement.rs`: `Track` — blocks plus the beat → block-index
acceleration map. -/
structure Track where
  beats : List (Nat × Nat)
  blocks : List Block
  deriving Repr, DecidableEq

/-- The inner loop of `Track::calculate_beats`:
`for i in place..bound_end { beats.insert(i, block_index) }`, with `n` the
number of beats left to insert. -/
def insertRangeAux (block_index : Nat) : Nat → Nat → List (Nat × Nat) → List (Nat × Nat)
  | _i, 0, m => m
  | i, n + 1, m => insertRangeAux block_index (i + 1) n (mapInsert m i block_index)

/-- Insert `i ↦ block_index` for every `i ∈ [place, bound_end)`. -/
def insertRange (m : List (Nat × Nat)) (place bound_end block_index : Nat) :
    List (Nat × Nat) :=
  insertRangeAux block_index place (bound_end - place) m

/-- The fold of `Track::calculate_beats` over the enumerated blocks:
`place` starts at `0` and becomes each block's `bounds.end`. -/
def calcBeatsGo : List Block → Nat → Nat → List (Nat × Nat) → List (Nat × Nat)
  | [], _place, _block_index, m => m
  | block :: rest, place, block_index, m =>
    calcBeatsGo rest block.bounds_stop (block_index + 1)
      (insertRange m place block.bounds_stop block_index)

namespace Track

/-- `Track::calculate_beats`: clear the map and rebuild it. -/
def calculate_beats (t : Track) : Track :=
  { t with beats := calcBeatsGo t.blocks 0 0 [] }

/-- `Track::get_block`.  (On a map produced by `calculate_beats` the stored
index is always in range, so the `blocks[i]` indexing cannot panic there;
a stale map would panic in Rust, which this total model does not chase.) -/
def get_block (t : Track) (beat : Nat) : Option Block :=
  match t.beats.lookup beat with
  | some beat_index =>
    match t.blocks.get? beat_index with
    | some b => if beat ≥ b.bounds_start then some b else none
    | none => none
  | none => none

/-- `Track::get_space`.  In release mode `block_index - 1` wraps for
`block_index = 0` and the `blocks.get` then yields `None`, hence the
explicit zero test.  `usize::MAX` is the unbounded upper end. -/
def get_space (t : Track) (block_index : Nat) : Nat × Nat :=
  let start :=
    if block_index = 0 then 0
    else
      match t.blocks.get? (block_index - 1) with
      | some b => b.bounds_stop
      | none => 0
  let stop :=
    match t.blocks.get? (block_index + 1) with
    | some b => b.bounds_start
    | none => 2 ^ 64 - 1
  (start, stop)

/-- `Track::add_block`: succeeds only when start and end beats hit the same
map entry (or none); on success the block is inserted and the map
recomputed.  `none` models the `blocks[*index]` panic on a stale map. -/
def add_block (t : Track) (block : Block) : Option (Track × Bool) :=
  let start_index := t.beats.lookup block.bounds_start
  let end_index := t.beats.lookup block.bounds_stop
  if start_index = end_index then
    match start_index with
    | some index =>
      match t.blocks.get? index with
      | none => none
      | some existing =>
        if block.bounds_stop < existing.bounds_start then
          some (calculate_beats { t with blocks := t.blocks.insertIdx index block }, true)
        else
          some (t, false)
    | none =>
      some (calculate_beats { t with blocks := t.blocks ++ [block] }, true)
  else
    some (t, false)

/-- `Track::move_block_bound`.  `none` models the `blocks[block_index]`
panic when the index is out of range. -/
def move_block_bound (t : Track) (block_index bound target : Nat) :
    Option (Track × Bool) :=
  let space := t.get_space block_index
  match t.blocks.get? block_index with
  | none => none
  | some b =>
    if bound = b.bounds_start then
      if target ≥ space.1 ∧ target < b.bounds_stop then
        some (calculate_beats
          { t with blocks := t.blocks.set block_index { b with bounds_start := target } },
          true)
      else
        some (t, false)
    else if bound = b.bounds_stop then
      if target ≤ space.2 ∧ target > b.bounds_start then
        some (calculate_beats
          { t with blocks := t.blocks.set block_index { b with bounds_stop := target } },
          true)
      else
        some (t, false)
    else
      some (t, false)

end Track

/-! ## The audio engine (`src/audio.rs`) -/

/-- One scheduled entry of the arrangement index, as consumed by the output
callback (`source_index.audio_source_id`, `source_index.beats_offset`).

Modelled from the spec: the `ArrangementAudioSourceIndex` type compiled by
the editor is not in `src/` (the `arrangement.rs` present predates it); its
shape is fixed by §3 of the spec (a dense mapping
`beat → [(AudioSourceId, beats_offset)]`) and by its uses in
`src/audio.rs`. -/
structure SourceIndex where
  audio_source_id : Nat
  beats_offset : Rat
  deriving Repr, DecidableEq

/-- Modelled from the spec: `ArrangementAudioSourceIndex`, the compiled
read-only map `beat → entries` handed to the engine as one message. -/
structure ArrangementAudioSourceIndex where
  beats : List (Nat × List SourceIndex)
  deriving Repr, DecidableEq

/-- `ArrangementAudioSourceIndex::default()`: the empty index. -/
def ArrangementAudioSourceIndex.default : ArrangementAudioSourceIndex :=
  ⟨[]⟩

/-- `src/audio.rs`: `AudioEngineHistory` — the part of the engine state the
undo history snapshots. -/
structure AudioEngineHistory where
  beats_per_second : Rat
  sources : List (Nat × AudioClip)
  next_audio_id : Nat
  deriving Repr, DecidableEq

/-- `src/audio.rs`: `Command` (audio-relevant payloads only; druid handle
types are out of the core). -/
inductive Command where
  | LogHistory
  | RevertHistory (history_id : Nat)
  | SetPlaying (val : Bool)
  | SetRecording (val : Bool)
  | SetPlayTime (time : Rat)
  | SetFeedback (val : Bool)
  | SetBeatsPerSecond (bps : Rat)
  | SetVolume (volume : Rat)
  | SetMetronome (m : Bool)
  | RemoveAudioSource (id : Nat)
  | GetAudioSourceClone (id : Nat)
  | DownloadAudioSources
  | SetArrangementAudioSourceIndex (index : ArrangementAudioSourceIndex)
  deriving Repr, DecidableEq

/-- `src/audio.rs`: `CommandResponse`. -/
inductive CommandResponse where
  | SetRecording (v : Option (Nat × AudioSourceFormat))
  | DownloadAudioSources (sources : List (Nat × AudioClip))
  | GetAudioSourceClone (clip : AudioClip)
  deriving Repr, DecidableEq

/-- The whole mutable state owned by the output callback: the `AudioEngine`
fields plus the closure-local variables of `AudioEngine::run`. -/
structure EngineState where
  volume : Rat
  beats_per_second : Rat
  feedback : Bool
  sources : List (Nat × AudioClip)
  next_audio_id : Nat
  history : List (AudioEngineHistory × Nat)
  history_current : Option AudioEngineHistory
  sample_rate : Nat
  channels : Nat
  noise_level : Rat
  noise_sample : Nat
  channel : Nat
  play_sample : Nat
  play_frame : Nat
  metronome : Bool
  wait_for_input : Bool
  waiting_for_input : Bool
  playing : Bool
  recording : Bool
  recording_clip : Option AudioClip
  arrangement_index : ArrangementAudioSourceIndex
  deriving Repr, DecidableEq

/-- `AudioEngineHistory::from_audio_engine`. -/
def engineHistoryEntry (st : EngineState) : AudioEngineHistory :=
  ⟨st.beats_per_second, st.sources, st.next_audio_id⟩

/-- `History::log_history` (`src/deligate.rs`): returns the new history
list, the new `current_data`, and the id handed back (druid `same` on the
snapshot is modelled as equality). -/
def logHistory (hist : List (AudioEngineHistory × Nat))
    (cur : Option AudioEngineHistory) (data : AudioEngineHistory) :
    List (AudioEngineHistory × Nat) × Option AudioEngineHistory × Option Nat :=
  match cur with
  | some c =>
    if c = data then (hist, cur, none)
    else
      let last_id := (hist.getLast?.map Prod.snd).getD 0
      (hist ++ [(c, last_id + 1)], some data, some (last_id + 1))
  | none => (hist, some data, none)

/-- The `while let` loop of `History::revert_to`, popping from the back,
here structurally from the front of the reversed list. -/
def revertToRev (target : Nat) :
    List (AudioEngineHistory × Nat) →
      List (AudioEngineHistory × Nat) × Option AudioEngineHistory
  | [] => ([], none)
  | (e, hid) :: rest =>
    if hid > target then revertToRev target rest
    else if hid < target then ((e, hid) :: rest, none)
    else (rest, some e)

/-- `History::revert_to` (`src/deligate.rs`): entries newer than the target
are discarded even when the target is not found. -/
def revertTo (hist : List (AudioEngineHistory × Nat)) (target : Nat) :
    List (AudioEngineHistory × Nat) × Option AudioEngineHistory :=
  let r := revertToRev target hist.reverse
  (r.1.reverse, r.2)

/-- The command match of the output callback (`src/audio.rs` lines
258–348): the state after applying one command, plus the responses sent.
`none` models a panic: `self.sources[&id]` on a missing key, and the
out-of-bounds indexing inside `AudioClip::clean`. -/
def applyCommand (st : EngineState) (cmd : Command) :
    Option (EngineState × List CommandResponse) :=
  match cmd with
  | Command.LogHistory =>
    let r := logHistory st.history st.history_current (engineHistoryEntry st)
    some ({ st with history := r.1, history_current := r.2.1 }, [])
  | Command.RevertHistory history_id =>
    let r := revertTo st.history history_id
    match r.2 with
    | some e =>
      some ({ st with
              history := r.1
              beats_per_second := e.beats_per_second
              sources := e.sources
              next_audio_id := e.next_audio_id }, [])
    | none => some ({ st with history := r.1 }, [])
  | Command.SetPlaying val =>
    some ({ st with playing := val, recording := st.recording && val }, [])
  | Command.SetRecording val =>
    if val then
      some ({ st with
              recording_clip := some (AudioClip.empty
                ⟨st.sample_rate, 0, st.channels, st.beats_per_second⟩)
              waiting_for_input := if st.wait_for_input then true else st.waiting_for_input
              playing := true
              recording := true }, [])
    else
      match st.recording_clip with
      | some clip =>
        match clip.clean with
        | none => none
        | some cleaned =>
          let id := st.next_audio_id
          some ({ st with
                  recording := false
                  recording_clip := none
                  next_audio_id := id + 1
                  sources := mapInsert st.sources id cleaned },
            [CommandResponse.SetRecording (some (id, cleaned.format))])
      | none =>
        some ({ st with recording := false, recording_clip := none },
          [CommandResponse.SetRecording none])
  | Command.SetPlayTime time =>
    some ({ st with
            play_sample := castU32 (time * (st.sample_rate : Rat) * (st.channels : Rat)) }, [])
  | Command.SetBeatsPerSecond bps =>
    some ({ st with beats_per_second := bps }, [])
  | Command.SetFeedback val =>
    some ({ st with feedback := val }, [])
  | Command.SetVolume volume =>
    some ({ st with volume := volume }, [])
  | Command.SetMetronome m =>
    some ({ st with metronome := m }, [])
  | Command.RemoveAudioSource id =>
    some ({ st with sources := mapRemove st.sources id }, [])
  | Command.GetAudioSourceClone id =>
    match st.sources.lookup id with
    | none => none
    | some clip => some (st, [CommandResponse.GetAudioSourceClone clip])
  | Command.DownloadAudioSources =>
    some (st, [CommandResponse.DownloadAudioSources st.sources])
  | Command.SetArrangementAudioSourceIndex index =>
    some ({ st with arrangement_index := index }, [])

/-- The feedback path (`src/audio.rs` lines 350–359): on a successful pop
the slot receives `s * volume` or `0`; on pop failure the slot is left at
whatever value `prev` it already held. -/
def feedbackSample (feedback : Bool) (volume : Rat) (popped : Option Rat)
    (prev : Rat) : Rat :=
  match popped with
  | some s => if feedback then s * volume else 0
  | none => prev

/-- The recording tap (`src/audio.rs` lines 373–380), applied to the current
output sample when a recording clip is present. -/
def recordTap (channel channels : Nat) (noise_level : Rat)
    (waiting_for_input : Bool) (clip : AudioClip) (sample : Rat) : AudioClip :=
  if (channel % channels = 0 ∧
        (|sample| > noise_level * (12/10) ∨ waiting_for_input = false)) ∨
      clip.len_samples > 0 then
    clip.append_sample sample
  else
    clip

/-- The noise-calibration block (`src/audio.rs` lines 364–371): while a
noise pass is active, lower the remaining count and raise `noise_level` to
the current output sample (the code takes `max` of the raw sample, without
`abs`). -/
def noisePhase (st : EngineState) (sample : Rat) : EngineState :=
  if st.noise_sample > 0 then
    { st with
      noise_sample := st.noise_sample - 1
      noise_level := max st.noise_level sample }
  else st

/-- The recording-tap block (`src/audio.rs` lines 373–380): feed the output
sample to `recordTap` when a recording clip is present. -/
def tapPhase (st : EngineState) (sample : Rat) : EngineState :=
  match st.recording_clip with
  | some clip =>
    { st with
      recording_clip := some (recordTap st.channel st.channels st.noise_level
        st.waiting_for_input clip sample) }
  | none => st

/-- The mixing loop over the entries scheduled at the current beat
(`src/audio.rs` lines 402–425).  `none` models the `self.sources[&id]`
panic on a missing id; a `get_sample` miss contributes nothing.  The
`offset as u32` cast wraps, so the read frame is the wrapped `u32` sum. -/
def mixSources (sources : List (Nat × AudioClip)) (entries : List SourceIndex)
    (sample_rate : Nat) (bps : Rat) (beat_frame channel : Nat) (sample : Rat) :
    Option Rat :=
  match entries with
  | [] => some sample
  | e :: rest =>
    let offset : Int := castI64 (e.beats_offset * (sample_rate : Rat) / bps)
    if (beat_frame : Int) + offset < 0 then
      mixSources sources rest sample_rate bps beat_frame channel sample
    else
      match sources.lookup e.audio_source_id with
      | none => none
      | some clip =>
        let frame := (((beat_frame : Int) + offset).emod (2 ^ 32)).toNat
        let sample' :=
          match clip.get_sample frame channel bps with
          | some s => sample + s
          | none => sample
        mixSources sources rest sample_rate bps beat_frame channel sample'

/-- `play_sample + 1` with release-mode `u32` wrap-around, as the transport
block performs on every playing sample. -/
def nextPlaySample (st : EngineState) : Nat :=
  (st.play_sample + 1) % 2 ^ 32

/-- `play_frame = play_sample / channels`, for the freshly incremented
`play_sample`. -/
def nextPlayFrame (st : EngineState) : Nat :=
  nextPlaySample st / st.channels

/-- `beat = (play_frame / sample_rate * beats_per_second).floor() as u32`. -/
def currentBeat (st : EngineState) : Nat :=
  castU32 ((nextPlayFrame st : Rat) / (st.sample_rate : Rat) * st.beats_per_second)

/-- `(sample_rate / beats_per_second).floor() as u32`, the modulus of the
intra-beat frame counter. -/
def beatDivisor (st : EngineState) : Nat :=
  castU32 ((st.sample_rate : Rat) / st.beats_per_second)

/-- `beat_frame = play_frame % divisor` (panics in Rust when the divisor is
zero; guarded at the use site). -/
def currentBeatFrame (st : EngineState) : Nat :=
  nextPlayFrame st % beatDivisor st

/-- `(beats_offset * sample_rate / beats_per_second) as i64` for one
scheduled entry. -/
def entryOffset (st : EngineState) (e : SourceIndex) : Int :=
  castI64 (e.beats_offset * (st.sample_rate : Rat) / st.beats_per_second)

/-- The metronome click (`src/audio.rs` lines 383–390): while recording
with the metronome on, `0.3` is added to the sample near each beat.  It
reads `play_frame` before the increment. -/
def metronomeSample (st : EngineState) (sample : Rat) : Rat :=
  if st.recording ∧ st.metronome ∧
      fmodTrunc ((st.play_frame : Rat) / (st.sample_rate : Rat))
        (1 / st.beats_per_second) < 1/100 then
    sample + 3/10
  else sample

/-- The arrangement lookup plus mixing for the current beat
(`src/audio.rs` lines 402–425). -/
def mixedAtBeat (st : EngineState) (sample : Rat) : Option Rat :=
  match st.arrangement_index.beats.lookup (currentBeat st) with
  | some entries =>
    mixSources st.sources entries st.sample_rate st.beats_per_second
      (currentBeatFrame st) st.channel sample
  | none => some sample

/-- The transport block of the output callback (`src/audio.rs` lines
382–436): metronome click, play-position advance, arrangement mixing.
`none` models the panics: `u32` division/remainder by zero and a missing
source id during mixing. -/
def transportAdvance (st : EngineState) (sample : Rat) :
    Option (EngineState × Rat) :=
  if st.playing then
    if st.channels = 0 then none
    else if beatDivisor st = 0 then none
    else
      match mixedAtBeat st (metronomeSample st sample) with
      | none => none
      | some sample =>
        if st.sample_rate / 30 = 0 then none
        else
          some ({ st with
                  play_sample := nextPlaySample st
                  play_frame := nextPlayFrame st },
            sample)
  else
    some (st, sample)

/-- One device output sample of the callback (`src/audio.rs` lines
257–437): drain at most one command, feedback path, channel accounting,
noise-gate arming, recording tap, transport advance, write the sample.
`prev` is the value the device buffer slot held before the callback. -/
def stepSample (st : EngineState) (cmd : Option Command) (popped : Option Rat)
    (prev : Rat) : Option (EngineState × Rat × List CommandResponse) :=
  let afterCmd :=
    match cmd with
    | some c => applyCommand st c
    | none => some (st, [])
  match afterCmd with
  | none => none
  | some (st1, responses) =>
    let sample := feedbackSample st1.feedback st1.volume popped prev
    if st1.channels = 0 then none
    else
      let st2 := { st1 with channel := (st1.channel + 1) % st1.channels }
      let st3 := noisePhase st2 sample
      let st4 := tapPhase st3 sample
      match transportAdvance st4 sample with
      | none => none
      | some (st5, sample) => some (st5, sample, responses)

/-- The engine state at the start of the output callback: the fields set by
`AudioEngine::new` and the locals initialised in `AudioEngine::run`
(`run` also seeds `current_data` with the initial snapshot). -/
def initialState (sample_rate channels : Nat) : EngineState :=
  { volume := 1/2
    beats_per_second := 2
    feedback := true
    sources := []
    next_audio_id := 0
    history := []
    history_current := some ⟨2, [], 0⟩
    sample_rate := sample_rate
    channels := channels
    noise_level := 1/40
    noise_sample := 0
    channel := 0
    play_sample := 0
    play_frame := 0
    metronome := true
    wait_for_input := true
    waiting_for_input := false
    playing := false
    recording := false
    recording_clip := none
    arrangement_index := ArrangementAudioSourceIndex.default }

/-- Run the callback over a trace of (command drained, ring pop result,
previous buffer value) triples. -/
def runTrace (st : EngineState) :
    List (Option Command × Option Rat × Rat) → Option EngineState
  | [] => some st
  | (cmd, popped, prev) :: rest =>
    match stepSample st cmd popped prev with
    | none => none
    | some (st', _, _) => runTrace st' rest

/-! ## Helper lemmas -/

/-- The read index of `get_sample`, as a named value. -/
def resampleIndex (c : AudioClip) (frame channel : Nat) (bps : Rat) : Nat :=
  (ratRound (((frame * c.format.channels + channel : Nat) : Rat) *
      (bps / c.format.beats_per_second))).toNat

theorem get_sample_eq_get? (c : AudioClip) (frame channel : Nat) (bps : Rat) :
    c.get_sample frame channel bps = c.samples.get? (resampleIndex c frame channel bps) :=
  rfl

theorem ratRound_natCast (n : Nat) : ratRound (n : Rat) = n := by
  unfold ratRound
  rw [if_pos (by positivity)]
  rw [Int.floor_eq_iff]
  constructor
  · push_cast
    linarith
  · push_cast
    linarith

theorem int_toNat_lit (n : Nat) :
    (no_index (OfNat.ofNat n) : Int).toNat = OfNat.ofNat n := rfl

theorem noisePhase_eq_of_inactive (st : EngineState) (s : Rat)
    (h : st.noise_sample = 0) : noisePhase st s = st := by
  unfold noisePhase
  rw [h]
  simp

/-! ## Claim C4 -/

/-- C4: for every clip, frame `f`, channel `c` and playback tempo `bps`
(tempos are positive), `get_sample f c bps` returns
`some (samples[round((f * channels + c) * (bps / recorded_bps))])` when the
rounded index is within `samples` and `none` when it is past the end; and
when `bps` equals the clip's recorded `beats_per_second`, the read is exact:
`get_sample f c bps = samples.get? (f * channels + c)`. -/
theorem C4_get_sample_spec (c : AudioClip) (frame channel : Nat) (bps : Rat)
    (hr : 0 < c.format.beats_per_second) :
    (resampleIndex c frame channel bps < c.samples.length →
        c.get_sample frame channel bps =
          some (c.samples.getD (resampleIndex c frame channel bps) 0)) ∧
    (c.samples.length ≤ resampleIndex c frame channel bps →
        c.get_sample frame channel bps = none) ∧
    (bps = c.format.beats_per_second →
        c.get_sample frame channel bps =
          c.samples.get? (frame * c.format.channels + channel)) := by
  refine ⟨fun h => ?_, fun h => ?_, fun h => ?_⟩
  · rw [get_sample_eq_get?, List.getD, List.get?_eq_get h]
    rfl
  · rw [get_sample_eq_get?, List.get?_eq_none.2 h]
  · rw [get_sample_eq_get?]
    unfold resampleIndex
    rw [h, div_self (ne_of_gt hr), mul_one, ratRound_natCast, Int.toNat_ofNat]

/-- Witness for C4 at a concrete clip: two interleaved channels recorded at
`beats_per_second = 2`, read back at the same tempo. -/
theorem C4_get_sample_spec_witness :
    AudioClip.get_sample ⟨⟨4, 2, 2, 2⟩, [10, 11, 12, 13]⟩ 1 1 2 = some 13 := by
  have h := (C4_get_sample_spec ⟨⟨4, 2, 2, 2⟩, [10, 11, 12, 13]⟩ 1 1 2
    (by norm_num)).2.2 rfl
  rw [h]
  rfl

/-! ## Claim C2 -/

/-- C2, counterexample to the claim as stated: `GetAudioSourceClone` for an
id not present in `sources` aborts the audio callback (the Rust code
indexes `self.sources[&id]`, which panics on a missing key), so processing
this command is not total. -/
theorem C2_clone_missing_id_counterexample :
    applyCommand (initialState 300 1) (Command.GetAudioSourceClone 0) = none :=
  rfl

/-- C2 (amended): processing a command is total for every command except
the two panicking cases — `GetAudioSourceClone` for an id not in `sources`,
and `SetRecording(false)` whose active recording clip makes
`AudioClip::clean` index out of bounds. -/
theorem C2_command_total_except (st : EngineState) (cmd : Command)
    (hclone : ∀ id, cmd = Command.GetAudioSourceClone id →
        (st.sources.lookup id).isSome = true)
    (hrec : ∀ clip, cmd = Command.SetRecording false →
        st.recording_clip = some clip → clip.clean.isSome = true) :
    (applyCommand st cmd).isSome = true := by
  cases cmd with
  | LogHistory => simp [applyCommand]
  | RevertHistory history_id =>
    simp only [applyCommand]
    rcases (revertTo st.history history_id).2 with _ | e <;> simp
  | SetPlaying val => simp [applyCommand]
  | SetRecording val =>
    cases val with
    | true => simp [applyCommand]
    | false =>
      rcases hc : st.recording_clip with _ | clip
      · simp [applyCommand, hc]
      · have hcl := hrec clip rfl hc
        rcases hclean : clip.clean with _ | cleaned
        · rw [hclean] at hcl
          simp at hcl
        · simp [applyCommand, hc, hclean]
  | SetPlayTime time => simp [applyCommand]
  | SetBeatsPerSecond bps => simp [applyCommand]
  | SetFeedback val => simp [applyCommand]
  | SetVolume volume => simp [applyCommand]
  | SetMetronome m => simp [applyCommand]
  | RemoveAudioSource id => simp [applyCommand]
  | GetAudioSourceClone id =>
    have hl := hclone id rfl
    rcases hlook : st.sources.lookup id with _ | clip
    · rw [hlook] at hl
      simp at hl
    · simp [applyCommand, hlook]
  | DownloadAudioSources => simp [applyCommand]
  | SetArrangementAudioSourceIndex index => simp [applyCommand]

/-- Witness for C2 (amended): cloning an id that is present succeeds. -/
theorem C2_command_total_except_witness :
    (applyCommand { initialState 300 1 with
        sources := [(0, AudioClip.empty ⟨300, 0, 1, 2⟩)] }
      (Command.GetAudioSourceClone 0)).isSome = true := by
  apply C2_command_total_except
  · intro id h
    injection h with h'
    subst h'
    rfl
  · intro clip h
    exact absurd h (by simp)

/-! ## Claim C3 -/

/-- C3, counterexample to the claim as stated: a recording session that
captured no sound does not return `Recorded(None)` — when
`SetRecording(false)` arrives while the active clip is still empty, the
fade loop of `AudioClip::clean` indexes `samples[0]` out of bounds and the
callback aborts. -/
theorem C3_empty_clip_counterexample :
    applyCommand { initialState 300 1 with
        recording_clip := some (AudioClip.empty ⟨300, 0, 1, 2⟩) }
      (Command.SetRecording false) = none :=
  rfl

/-- C3 (amended): `SetRecording(false)` with no active clip replies
`Recorded(None)` and leaves `sources` unchanged; but with an active clip
that is still empty (and a fade width `sample_rate/100 > 0`, true for every
real device rate) the handler panics inside `clean` instead of returning
no clip. -/
theorem C3_stop_recording_reply (st : EngineState) :
    (st.recording_clip = none →
        applyCommand st (Command.SetRecording false) =
          some ({ st with recording := false, recording_clip := none },
            [CommandResponse.SetRecording none])) ∧
    (∀ clip, st.recording_clip = some clip → clip.samples = [] →
        0 < clip.format.sample_rate / 100 →
        applyCommand st (Command.SetRecording false) = none) := by
  constructor
  · intro h
    simp [applyCommand, h]
  · intro clip h hs hf
    have hcl : clip.clean = none := by
      unfold AudioClip.clean
      rw [hs]
      split
      · rfl
      · simp only [List.length_nil, Nat.zero_mod, Nat.sub_zero, List.take_nil]
        unfold AudioClip.fadeLoop
        obtain ⟨k, hk⟩ := Nat.exists_eq_succ_of_ne_zero (Nat.pos_iff_ne_zero.mp hf)
        rw [hk]
        rfl
    simp [applyCommand, h, hcl]

/-- Witness for C3: both halves at concrete engine states. -/
theorem C3_stop_recording_reply_witness :
    applyCommand (initialState 300 1) (Command.SetRecording false) =
        some ({ initialState 300 1 with recording := false, recording_clip := none },
          [CommandResponse.SetRecording none]) ∧
      applyCommand { initialState 300 1 with
          recording_clip := some (AudioClip.empty ⟨300, 0, 1, 2⟩) }
        (Command.SetRecording false) = none :=
  ⟨(C3_stop_recording_reply (initialState 300 1)).1 rfl,
    (C3_stop_recording_reply _).2 (AudioClip.empty ⟨300, 0, 1, 2⟩) rfl rfl
      (by decide)⟩

@[simp] theorem noisePhase_playing (st : EngineState) (s : Rat) :
    (noisePhase st s).playing = st.playing := by
  unfold noisePhase; split <;> rfl

@[simp] theorem noisePhase_recording (st : EngineState) (s : Rat) :
    (noisePhase st s).recording = st.recording := by
  unfold noisePhase; split <;> rfl

@[simp] theorem noisePhase_recording_clip (st : EngineState) (s : Rat) :
    (noisePhase st s).recording_clip = st.recording_clip := by
  unfold noisePhase; split <;> rfl

@[simp] theorem noisePhase_channels (st : EngineState) (s : Rat) :
    (noisePhase st s).channels = st.channels := by
  unfold noisePhase; split <;> rfl

@[simp] theorem noisePhase_channel (st : EngineState) (s : Rat) :
    (noisePhase st s).channel = st.channel := by
  unfold noisePhase; split <;> rfl

@[simp] theorem noisePhase_sample_rate (st : EngineState) (s : Rat) :
    (noisePhase st s).sample_rate = st.sample_rate := by
  unfold noisePhase; split <;> rfl

@[simp] theorem noisePhase_beats_per_second (st : EngineState) (s : Rat) :
    (noisePhase st s).beats_per_second = st.beats_per_second := by
  unfold noisePhase; split <;> rfl

@[simp] theorem noisePhase_sources (st : EngineState) (s : Rat) :
    (noisePhase st s).sources = st.sources := by
  unfold noisePhase; split <;> rfl

@[simp] theorem noisePhase_arrangement_index (st : EngineState) (s : Rat) :
    (noisePhase st s).arrangement_index = st.arrangement_index := by
  unfold noisePhase; split <;> rfl

@[simp] theorem noisePhase_play_sample (st : EngineState) (s : Rat) :
    (noisePhase st s).play_sample = st.play_sample := by
  unfold noisePhase; split <;> rfl

@[simp] theorem noisePhase_play_frame (st : EngineState) (s : Rat) :
    (noisePhase st s).play_frame = st.play_frame := by
  unfold noisePhase; split <;> rfl

@[simp] theorem noisePhase_waiting_for_input (st : EngineState) (s : Rat) :
    (noisePhase st s).waiting_for_input = st.waiting_for_input := by
  unfold noisePhase; split <;> rfl

@[simp] theorem noisePhase_metronome (st : EngineState) (s : Rat) :
    (noisePhase st s).metronome = st.metronome := by
  unfold noisePhase; split <;> rfl

@[simp] theorem tapPhase_playing (st : EngineState) (s : Rat) :
    (tapPhase st s).playing = st.playing := by
  unfold tapPhase; split <;> rfl

@[simp] theorem tapPhase_recording (st : EngineState) (s : Rat) :
    (tapPhase st s).recording = st.recording := by
  unfold tapPhase; split <;> rfl

@[simp] theorem tapPhase_channels (st : EngineState) (s : Rat) :
    (tapPhase st s).channels = st.channels := by
  unfold tapPhase; split <;> rfl

@[simp] theorem tapPhase_channel (st : EngineState) (s : Rat) :
    (tapPhase st s).channel = st.channel := by
  unfold tapPhase; split <;> rfl

@[simp] theorem tapPhase_sample_rate (st : EngineState) (s : Rat) :
    (tapPhase st s).sample_rate = st.sample_rate := by
  unfold tapPhase; split <;> rfl

@[simp] theorem tapPhase_beats_per_second (st : EngineState) (s : Rat) :
    (tapPhase st s).beats_per_second = st.beats_per_second := by
  unfold tapPhase; split <;> rfl

@[simp] theorem tapPhase_sources (st : EngineState) (s : Rat) :
    (tapPhase st s).sources = st.sources := by
  unfold tapPhase; split <;> rfl

@[simp] theorem tapPhase_arrangement_index (st : EngineState) (s : Rat) :
    (tapPhase st s).arrangement_index = st.arrangement_index := by
  unfold tapPhase; split <;> rfl

@[simp] theorem tapPhase_play_sample (st : EngineState) (s : Rat) :
    (tapPhase st s).play_sample = st.play_sample := by
  unfold tapPhase; split <;> rfl

@[simp] theorem tapPhase_play_frame (st : EngineState) (s : Rat) :
    (tapPhase st s).play_frame = st.play_frame := by
  unfold tapPhase; split <;> rfl

@[simp] theorem tapPhase_metronome (st : EngineState) (s : Rat) :
    (tapPhase st s).metronome = st.metronome := by
  unfold tapPhase; split <;> rfl

@[simp] theorem tapPhase_waiting_for_input (st : EngineState) (s : Rat) :
    (tapPhase st s).waiting_for_input = st.waiting_for_input := by
  unfold tapPhase; split <;> rfl

/-! ## Claim C6 -/

/-- C6, counterexample to the claim as stated: on a pop failure the engine
does not write `0` — it leaves the device-buffer slot at its previous
value.  Here the slot held `1` before the callback and still holds `1`
after the sample is processed. -/
theorem C6_pop_failure_counterexample :
    stepSample (initialState 300 1) none none 1 =
      some (initialState 300 1, 1, []) :=
  rfl

/-- C6 (amended): when the ring-transport pop fails, the engine leaves the
device-buffer sample at whatever value it previously held (the `None` match
arm does nothing); while the transport is not playing, the emitted value is
therefore exactly `prev`, not `0`, whatever the feedback and volume
settings. -/
theorem C6_pop_failure_keeps_buffer (st : EngineState) (prev : Rat)
    (hch : 0 < st.channels) (hplay : st.playing = false) :
    (stepSample st none none prev).map (fun r => r.2.1) = some prev := by
  have hch' : st.channels ≠ 0 := Nat.pos_iff_ne_zero.mp hch
  simp only [stepSample, feedbackSample]
  rw [if_neg hch']
  simp only [transportAdvance, tapPhase_playing, noisePhase_playing, hplay]
  simp

/-- Witness for C6 (amended): a concrete idle engine state and previous
buffer value `7`. -/
theorem C6_pop_failure_keeps_buffer_witness :
    (stepSample (initialState 300 1) none none 7).map (fun r => r.2.1) = some 7 :=
  C6_pop_failure_keeps_buffer (initialState 300 1) 7 (by decide) rfl

theorem transportAdvance_preserves (st st' : EngineState) (s s' : Rat)
    (h : transportAdvance st s = some (st', s')) :
    st'.recording = st.recording ∧ st'.playing = st.playing ∧
      st'.recording_clip = st.recording_clip ∧ st'.channels = st.channels ∧
      st'.channel = st.channel ∧ st'.sources = st.sources ∧
      st'.waiting_for_input = st.waiting_for_input ∧
      st'.noise_level = st.noise_level ∧
      st'.beats_per_second = st.beats_per_second := by
  unfold transportAdvance at h
  split at h
  · split at h
    · exact Option.noConfusion h
    · split at h
      · exact Option.noConfusion h
      · split at h
        · exact Option.noConfusion h
        · split at h
          · exact Option.noConfusion h
          · simp only [Option.some.injEq, Prod.mk.injEq] at h
            obtain ⟨h1, -⟩ := h
            subst h1
            exact ⟨rfl, rfl, rfl, rfl, rfl, rfl, rfl, rfl, rfl⟩
  · simp only [Option.some.injEq, Prod.mk.injEq] at h
    obtain ⟨h1, -⟩ := h
    subst h1
    exact ⟨rfl, rfl, rfl, rfl, rfl, rfl, rfl, rfl, rfl⟩

/-- Split a successful `stepSample` into the command phase and the rest of
the per-sample pipeline. -/
theorem stepSample_decomp (st : EngineState) (cmd : Option Command)
    (popped : Option Rat) (prev : Rat) (st' : EngineState) (out : Rat)
    (rs : List CommandResponse)
    (h : stepSample st cmd popped prev = some (st', out, rs)) :
    ∃ st1,
      (match cmd with
        | some c => applyCommand st c
        | none => some (st, [])) = some (st1, rs) ∧
      st1.channels ≠ 0 ∧
      transportAdvance
        (tapPhase
          (noisePhase { st1 with channel := (st1.channel + 1) % st1.channels }
            (feedbackSample st1.feedback st1.volume popped prev))
          (feedbackSample st1.feedback st1.volume popped prev))
        (feedbackSample st1.feedback st1.volume popped prev) = some (st', out) := by
  unfold stepSample at h
  rcases hac : (match cmd with
    | some c => applyCommand st c
    | none => some (st, [])) with _ | ⟨st1, responses⟩
  · rw [hac] at h
    exact Option.noConfusion h
  · rw [hac] at h
    dsimp only [] at h
    by_cases hch : st1.channels = 0
    · rw [if_pos hch] at h
      exact Option.noConfusion h
    · rw [if_neg hch] at h
      split at h
      · exact Option.noConfusion h
      · rename_i st5 s5 hta
        simp only [Option.some.injEq, Prod.mk.injEq] at h
        obtain ⟨h1, h2, h3⟩ := h
        subst h1
        subst h2
        subst h3
        exact ⟨st1, hac, hch, hta⟩

theorem applyCommand_preserves_rec_play (st st' : EngineState) (cmd : Command)
    (rs : List CommandResponse) (h : applyCommand st cmd = some (st', rs))
    (hrp : st.recording = true → st.playing = true) :
    st'.recording = true → st'.playing = true := by
  cases cmd with
  | LogHistory =>
    simp only [applyCommand, Option.some.injEq, Prod.mk.injEq] at h
    obtain ⟨h1, -⟩ := h
    subst h1
    exact hrp
  | RevertHistory history_id =>
    simp only [applyCommand] at h
    rcases hrt : (revertTo st.history history_id).2 with _ | e <;> rw [hrt] at h <;>
      dsimp only [] at h <;>
      simp only [Option.some.injEq, Prod.mk.injEq] at h <;>
      obtain ⟨h1, -⟩ := h <;> subst h1 <;> exact hrp
  | SetPlaying val =>
    simp only [applyCommand, Option.some.injEq, Prod.mk.injEq] at h
    obtain ⟨h1, -⟩ := h
    subst h1
    intro hx
    simp only at hx ⊢
    exact (Bool.and_eq_true _ _ |>.mp hx).2
  | SetRecording val =>
    cases val with
    | true =>
      rw [show applyCommand st (Command.SetRecording true) =
        some ({ st with
            recording_clip := some (AudioClip.empty
              ⟨st.sample_rate, 0, st.channels, st.beats_per_second⟩)
            waiting_for_input := if st.wait_for_input then true else st.waiting_for_input
            playing := true
            recording := true }, []) from rfl] at h
      simp only [Option.some.injEq, Prod.mk.injEq] at h
      obtain ⟨h1, -⟩ := h
      subst h1
      intro _
      rfl
    | false =>
      simp only [applyCommand] at h
      rw [if_neg (by simp)] at h
      rcases hrc : st.recording_clip with _ | clip
      · rw [hrc] at h
        dsimp only [] at h
        simp only [Option.some.injEq, Prod.mk.injEq] at h
        obtain ⟨h1, -⟩ := h
        subst h1
        intro hx
        exact absurd hx (by simp)
      · rw [hrc] at h
        dsimp only [] at h
        rcases hcl : clip.clean with _ | cleaned
        · rw [hcl] at h
          exact Option.noConfusion h
        · rw [hcl] at h
          dsimp only [] at h
          simp only [Option.some.injEq, Prod.mk.injEq] at h
          obtain ⟨h1, -⟩ := h
          subst h1
          intro hx
          exact absurd hx (by simp)
  | SetPlayTime time =>
    simp only [applyCommand, Option.some.injEq, Prod.mk.injEq] at h
    obtain ⟨h1, -⟩ := h
    subst h1
    exact hrp
  | SetBeatsPerSecond bps =>
    simp only [applyCommand, Option.some.injEq, Prod.mk.injEq] at h
    obtain ⟨h1, -⟩ := h
    subst h1
    exact hrp
  | SetFeedback val =>
    simp only [applyCommand, Option.some.injEq, Prod.mk.injEq] at h
    obtain ⟨h1, -⟩ := h
    subst h1
    exact hrp
  | SetVolume volume =>
    simp only [applyCommand, Option.some.injEq, Prod.mk.injEq] at h
    obtain ⟨h1, -⟩ := h
    subst h1
    exact hrp
  | SetMetronome m =>
    simp only [applyCommand, Option.some.injEq, Prod.mk.injEq] at h
    obtain ⟨h1, -⟩ := h
    subst h1
    exact hrp
  | RemoveAudioSource id =>
    simp only [applyCommand, Option.some.injEq, Prod.mk.injEq] at h
    obtain ⟨h1, -⟩ := h
    subst h1
    exact hrp
  | GetAudioSourceClone id =>
    simp only [applyCommand] at h
    rcases hlk : st.sources.lookup id with _ | clip <;> rw [hlk] at h
    · exact Option.noConfusion h
    · dsimp only [] at h
      simp only [Option.some.injEq, Prod.mk.injEq] at h
      obtain ⟨h1, -⟩ := h
      subst h1
      exact hrp
  | DownloadAudioSources =>
    simp only [applyCommand, Option.some.injEq, Prod.mk.injEq] at h
    obtain ⟨h1, -⟩ := h
    subst h1
    exact hrp
  | SetArrangementAudioSourceIndex index =>
    simp only [applyCommand, Option.some.injEq, Prod.mk.injEq] at h
    obtain ⟨h1, -⟩ := h
    subst h1
    exact hrp

theorem stepSample_preserves_rec_play (st st' : EngineState)
    (cmd : Option Command) (popped : Option Rat) (prev out : Rat)
    (rs : List CommandResponse)
    (h : stepSample st cmd popped prev = some (st', out, rs))
    (hrp : st.recording = true → st.playing = true) :
    st'.recording = true → st'.playing = true := by
  obtain ⟨st1, hac, -, hta⟩ := stepSample_decomp st cmd popped prev st' out rs h
  have hrp1 : st1.recording = true → st1.playing = true := by
    cases cmd with
    | none =>
      simp only [Option.some.injEq, Prod.mk.injEq] at hac
      obtain ⟨h1, -⟩ := hac
      subst h1
      exact hrp
    | some c => exact applyCommand_preserves_rec_play st st1 c rs hac hrp
  obtain ⟨hrec, hplay, -⟩ := transportAdvance_preserves _ _ _ _ hta
  rw [hrec, hplay]
  simpa using hrp1

theorem runTrace_preserves_rec_play
    (trace : List (Option Command × Option Rat × Rat)) :
    ∀ st st', runTrace st trace = some st' →
      (st.recording = true → st.playing = true) →
      st'.recording = true → st'.playing = true := by
  induction trace with
  | nil =>
    intro st st' h hrp
    simp only [runTrace, Option.some.injEq] at h
    subst h
    exact hrp
  | cons head tail ih =>
    intro st st' h hrp
    obtain ⟨cmd, popped, prev⟩ := head
    unfold runTrace at h
    rcases hs : stepSample st cmd popped prev with _ | ⟨st1, out, rs⟩
    · rw [hs] at h
      exact Option.noConfusion h
    · rw [hs] at h
      exact ih st1 st' h (stepSample_preserves_rec_play st st1 cmd popped prev out rs hs hrp)

/-! ## Claim C7 -/

/-- C7: in every engine state reachable from the initial state (`playing =
false`, `recording = false`) by any sequence of processed samples and
commands, `recording` implies `playing`: `SetRecording(true)` sets both,
`SetPlaying(false)` clears `recording` (`recording &= val`), and no other
step makes `recording` true while `playing` is false. -/
theorem C7_recording_implies_playing (sample_rate channels : Nat)
    (trace : List (Option Command × Option Rat × Rat)) (st' : EngineState)
    (h : runTrace (initialState sample_rate channels) trace = some st') :
    st'.recording = true → st'.playing = true :=
  runTrace_preserves_rec_play trace (initialState sample_rate channels) st' h
    (fun hx => absurd hx (by simp [initialState]))

/-- Witness for C7: the state reached by processing one sample that drains
`SetRecording(true)` is recording, and the theorem yields that it is
playing. -/
theorem C7_recording_implies_playing_witness :
    ({ initialState 300 1 with
        playing := true
        recording := true
        waiting_for_input := true
        recording_clip := some (AudioClip.empty ⟨300, 0, 1, 2⟩)
        play_sample := 1
        play_frame := 1 } : EngineState).playing = true := by
  refine C7_recording_implies_playing 300 1
    [(some (Command.SetRecording true), none, 0)] _ ?_ rfl
  unfold runTrace
  have hstep : stepSample (initialState 300 1) (some (Command.SetRecording true)) none 0 =
      some ({ initialState 300 1 with
          playing := true
          recording := true
          waiting_for_input := true
          recording_clip := some (AudioClip.empty ⟨300, 0, 1, 2⟩)
          play_sample := 1
          play_frame := 1 }, 3/10, []) := by
    norm_num [stepSample, applyCommand, feedbackSample, noisePhase, tapPhase, recordTap,
      AudioClip.len_samples, AudioClip.empty, AudioClip.append_sample, transportAdvance,
      beatDivisor, castU32, mixedAtBeat, currentBeat, nextPlayFrame, nextPlaySample,
      metronomeSample, fmodTrunc, ratTrunc, initialState, ArrangementAudioSourceIndex.default,
      int_toNat_lit]
  rw [hstep]
  rfl

theorem tapPhase_recording_clip_some (st : EngineState) (s : Rat)
    (clip : AudioClip) (h : st.recording_clip = some clip) :
    (tapPhase st s).recording_clip =
      some (recordTap st.channel st.channels st.noise_level st.waiting_for_input
        clip s) := by
  unfold tapPhase
  rw [h]

theorem append_sample_ne_self (clip : AudioClip) (s : Rat) :
    clip.append_sample s ≠ clip := by
  intro h
  have hlen := congrArg (fun c => c.samples.length) h
  simp [AudioClip.append_sample] at hlen

/-! ## Claim C10 -/

/-- C10: once the in-progress recording clip holds at least one sample,
every processed output sample is appended to it: whatever the input gate,
the `waiting_for_input` flag and the channel position, a step that drains
no command extends the clip by exactly the current (post-feedback) output
sample. -/
theorem C10_gapless_capture (st st' : EngineState) (clip : AudioClip)
    (popped : Option Rat) (prev out : Rat) (rs : List CommandResponse)
    (hclip : st.recording_clip = some clip)
    (hne : 0 < clip.len_samples)
    (hstep : stepSample st none popped prev = some (st', out, rs)) :
    st'.recording_clip =
      some (clip.append_sample (feedbackSample st.feedback st.volume popped prev)) := by
  obtain ⟨st1, hac, hch, hta⟩ := stepSample_decomp st none popped prev st' out rs hstep
  simp only [Option.some.injEq, Prod.mk.injEq] at hac
  obtain ⟨h1, -⟩ := hac
  subst h1
  obtain ⟨-, -, hcl', -⟩ := transportAdvance_preserves _ _ _ _ hta
  rw [hcl']
  rw [tapPhase_recording_clip_some _ _ clip (by simp [hclip])]
  unfold recordTap
  rw [if_pos (Or.inr hne)]

/-- Witness for C10: a clip already holding one sample gains the current
output sample. -/
theorem C10_gapless_capture_witness :
    ({ initialState 300 1 with
        recording_clip := some ⟨⟨300, 2, 1, 2⟩, [5, 1/2]⟩ } : EngineState).recording_clip =
      some (AudioClip.append_sample ⟨⟨300, 0, 1, 2⟩, [5]⟩
        (feedbackSample ({ initialState 300 1 with
            recording_clip := some ⟨⟨300, 0, 1, 2⟩, [5]⟩ } : EngineState).feedback
          ({ initialState 300 1 with
            recording_clip := some ⟨⟨300, 0, 1, 2⟩, [5]⟩ } : EngineState).volume
          (some 1) 0)) := by
  refine C10_gapless_capture
    { initialState 300 1 with recording_clip := some ⟨⟨300, 0, 1, 2⟩, [5]⟩ }
    { initialState 300 1 with recording_clip := some ⟨⟨300, 2, 1, 2⟩, [5, 1/2]⟩ }
    ⟨⟨300, 0, 1, 2⟩, [5]⟩ (some 1) 0 (1/2) [] rfl (by decide) ?_
  norm_num [stepSample, feedbackSample, noisePhase, tapPhase, recordTap,
    AudioClip.len_samples, AudioClip.append_sample, transportAdvance, initialState]

/-! ## Claim C8 -/

/-- C8, counterexample to the claim as stated: with the gate not armed
(`waiting_for_input = false`) and two device channels, the sample processed
while the incremented channel counter is `1` (not a frame boundary) is NOT
appended to the still-empty recording clip — the code requires
`channel % channels == 0` in both gate branches, so capture does not start
"immediately, regardless of channel position". -/
theorem C8_gate_counterexample :
    (stepSample { initialState 300 2 with
        waiting_for_input := false
        recording_clip := some (AudioClip.empty ⟨300, 0, 2, 2⟩) } none (some 1) 0).map
      (fun r => r.1.recording_clip) =
      some (some (AudioClip.empty ⟨300, 0, 2, 2⟩)) := by
  norm_num [stepSample, feedbackSample, noisePhase, tapPhase, recordTap,
    AudioClip.len_samples, AudioClip.empty, transportAdvance, initialState]

/-- C8 (amended): while the recording clip is active and still empty, with
a step that drains no command and no active noise pass: if the gate is
armed (`waiting_for_input = true`) the output sample is appended exactly
when the incremented channel counter is on a frame boundary AND
`|sample| > noise_level * 1.2`; if the gate is not armed, the sample is
appended exactly when the counter is on a frame boundary (not immediately
on every channel position, as the spec claims). -/
theorem C8_gate_behavior (st st' : EngineState) (clip : AudioClip)
    (popped : Option Rat) (prev out : Rat) (rs : List CommandResponse)
    (hclip : st.recording_clip = some clip)
    (hempty : clip.samples = [])
    (hnoise : st.noise_sample = 0)
    (hstep : stepSample st none popped prev = some (st', out, rs)) :
    (st.waiting_for_input = true →
      (st'.recording_clip =
          some (clip.append_sample (feedbackSample st.feedback st.volume popped prev)) ↔
        ((st.channel + 1) % st.channels = 0 ∧
          |feedbackSample st.feedback st.volume popped prev| >
            st.noise_level * (12/10)))) ∧
    (st.waiting_for_input = false →
      (st'.recording_clip =
          some (clip.append_sample (feedbackSample st.feedback st.volume popped prev)) ↔
        (st.channel + 1) % st.channels = 0)) := by
  obtain ⟨st1, hac, hch, hta⟩ := stepSample_decomp st none popped prev st' out rs hstep
  simp only [Option.some.injEq, Prod.mk.injEq] at hac
  obtain ⟨h1, -⟩ := hac
  subst h1
  obtain ⟨-, -, hcl', -⟩ := transportAdvance_preserves _ _ _ _ hta
  rw [noisePhase_eq_of_inactive _ _ (by simpa using hnoise)] at hcl'
  rw [tapPhase_recording_clip_some _ _ clip (by simpa using hclip)] at hcl'
  rw [hcl']
  unfold recordTap
  simp only [AudioClip.len_samples, hempty, List.length_nil, lt_self_iff_false,
    or_false, Nat.mod_mod]
  constructor
  · intro hw
    rw [hw]
    simp only [Bool.true_eq_false, or_false]
    by_cases hcond : (st.channel + 1) % st.channels = 0 ∧
        |feedbackSample st.feedback st.volume popped prev| > st.noise_level * (12/10)
    · rw [if_pos hcond]
      simp [hcond]
    · rw [if_neg hcond]
      constructor
      · intro habs
        exact absurd (Option.some.inj habs).symm (append_sample_ne_self clip _)
      · intro hc
        exact absurd hc hcond
  · intro hw
    rw [hw]
    simp only [or_true, and_true]
    by_cases hcond : (st.channel + 1) % st.channels = 0
    · rw [if_pos hcond]
      simp [hcond]
    · rw [if_neg hcond]
      constructor
      · intro habs
        exact absurd (Option.some.inj habs).symm (append_sample_ne_self clip _)
      · intro hc
        exact absurd hc hcond

/-- Witness for C8 (amended): mono device, gate not armed — the sample on
the frame boundary is captured at once. -/
theorem C8_gate_behavior_witness :
    ({ initialState 300 1 with
        waiting_for_input := false
        recording_clip := some ⟨⟨300, 1, 1, 2⟩, [1/2]⟩ } : EngineState).recording_clip =
      some (AudioClip.append_sample (AudioClip.empty ⟨300, 0, 1, 2⟩)
        (feedbackSample ({ initialState 300 1 with
            waiting_for_input := false
            recording_clip := some (AudioClip.empty ⟨300, 0, 1, 2⟩) } : EngineState).feedback
          ({ initialState 300 1 with
            waiting_for_input := false
            recording_clip := some (AudioClip.empty ⟨300, 0, 1, 2⟩) } : EngineState).volume
          (some 1) 0)) := by
  refine ((C8_gate_behavior
    { initialState 300 1 with
        waiting_for_input := false
        recording_clip := some (AudioClip.empty ⟨300, 0, 1, 2⟩) }
    { initialState 300 1 with
        waiting_for_input := false
        recording_clip := some ⟨⟨300, 1, 1, 2⟩, [1/2]⟩ }
    (AudioClip.empty ⟨300, 0, 1, 2⟩) (some 1) 0 (1/2) [] rfl rfl rfl ?_).2 rfl).mpr
    (by decide)
  norm_num [stepSample, feedbackSample, noisePhase, tapPhase, recordTap,
    AudioClip.len_samples, AudioClip.empty, AudioClip.append_sample,
    transportAdvance, initialState]

/-! ## Claim C1 -/

/-- C1, counterexample to the claim as stated: a playing step whose current
beat schedules an `AudioSourceId` that is not in `sources` does not emit
silence and continue — the callback aborts (`self.sources[&id]` panics on
the missing key).  Here the index schedules id `0` at beat `0` and
`sources` is empty, as after `RemoveAudioSource(0)` without an index
rebuild. -/
theorem C1_missing_source_counterexample :
    stepSample { initialState 300 1 with
        playing := true
        arrangement_index := ⟨[(0, [⟨0, 0⟩])]⟩ } none (some 1) 0 = none := by
  norm_num [stepSample, feedbackSample, noisePhase, tapPhase, transportAdvance,
    metronomeSample, fmodTrunc, ratTrunc, mixedAtBeat, mixSources, currentBeat,
    currentBeatFrame, beatDivisor, nextPlayFrame, nextPlaySample, castU32, castI64,
    initialState, int_toNat_lit]

/-- C1 (amended): when the arrangement index schedules, at the current
beat, an entry whose id is absent from `sources` and whose offset does not
skip it, the engine does not produce silence for that entry — the whole
audio callback aborts (Rust `HashMap` indexing panics), so playback does
not continue. -/
theorem C1_missing_source_aborts (st : EngineState) (e : SourceIndex)
    (popped : Option Rat) (prev : Rat)
    (hplay : st.playing = true)
    (hch : st.channels ≠ 0)
    (hdiv : beatDivisor st ≠ 0)
    (hsched : st.arrangement_index.beats.lookup (currentBeat st) = some [e])
    (hreach : 0 ≤ (currentBeatFrame st : Int) + entryOffset st e)
    (hmiss : st.sources.lookup e.audio_source_id = none) :
    stepSample st none popped prev = none := by
  unfold stepSample
  dsimp only []
  rw [if_neg hch]
  set s : Rat := feedbackSample st.feedback st.volume popped prev with hs
  set st4 : EngineState :=
    tapPhase (noisePhase { st with channel := (st.channel + 1) % st.channels } s) s
    with hst4
  suffices h : transportAdvance st4 s = none by rw [h]
  unfold transportAdvance
  rw [if_pos (show st4.playing = true by simp [hst4, hplay])]
  rw [if_neg (show ¬st4.channels = 0 by simp [hst4]; exact hch)]
  rw [if_neg (show ¬beatDivisor st4 = 0 by
    simp only [hst4, beatDivisor, tapPhase_sample_rate, noisePhase_sample_rate,
      tapPhase_beats_per_second, noisePhase_beats_per_second]
    exact hdiv)]
  suffices hmx : mixedAtBeat st4 (metronomeSample st4 s) = none by
    rw [hmx]
  unfold mixedAtBeat
  have hbeat : currentBeat st4 = currentBeat st := by
    simp [hst4, currentBeat, nextPlayFrame, nextPlaySample]
  have hidx : st4.arrangement_index = st.arrangement_index := by
    simp [hst4]
  rw [hbeat, hidx, hsched]
  unfold mixSources
  dsimp only []
  have hbf : currentBeatFrame st4 = currentBeatFrame st := by
    simp [hst4, currentBeatFrame, nextPlayFrame, nextPlaySample, beatDivisor]
  have hsr : st4.sample_rate = st.sample_rate := by simp [hst4]
  have hbps : st4.beats_per_second = st.beats_per_second := by simp [hst4]
  have hsrc : st4.sources = st.sources := by simp [hst4]
  rw [hbf, hsr, hbps, hsrc]
  rw [if_neg (by
    rw [not_lt]
    exact hreach)]
  rw [hmiss]

/-- Witness for C1 (amended): the hypotheses hold at a concrete playing
state whose index references a removed source. -/
theorem C1_missing_source_aborts_witness :
    stepSample { initialState 300 1 with
        playing := true
        arrangement_index := ⟨[(0, [⟨0, 0⟩])]⟩ } none none 2 = none := by
  refine C1_missing_source_aborts _ ⟨0, 0⟩ none 2 rfl (by decide) ?_ ?_ ?_ rfl
  · norm_num [beatDivisor, castU32, initialState, int_toNat_lit]
  · norm_num [currentBeat, nextPlayFrame, nextPlaySample, castU32, initialState,
      int_toNat_lit, List.lookup]
  · norm_num [currentBeatFrame, nextPlayFrame, nextPlaySample, beatDivisor,
      entryOffset, castU32, castI64, ratTrunc, initialState, int_toNat_lit]

/-! ## Claim C9 -/

/-- The `place` value `calculate_beats` holds when it reaches block `i`:
the previous block's `bounds.end`, or the seed for block `0`. -/
def placeRel (place : Nat) : List Block → Nat → Nat
  | _, 0 => place
  | [], _ + 1 => place
  | b :: rest, i + 1 => placeRel b.bounds_stop rest i

/-- `blocks[i].bounds.end`, defaulting to `0` out of range. -/
def blockStop (bs : List Block) (i : Nat) : Nat :=
  ((bs.get? i).map Block.bounds_stop).getD 0

theorem lookup_filter_ne {β : Type} (m : List (Nat × β)) (k key : Nat)
    (h : key ≠ k) :
    (m.filter (fun p => p.1 ≠ k)).lookup key = m.lookup key := by
  induction m with
  | nil => rfl
  | cons p rest ih =>
    obtain ⟨pk, pv⟩ := p
    by_cases hp : pk = k
    · subst hp
      rw [List.filter_cons_of_neg (by simp)]
      rw [ih]
      have hk : (key == pk) = false := beq_eq_false_iff_ne.mpr h
      simp [List.lookup, hk]
    · rw [List.filter_cons_of_pos (by simp [hp])]
      by_cases hk2 : key = pk
      · subst hk2
        simp [List.lookup]
      · have hk : (key == pk) = false := beq_eq_false_iff_ne.mpr hk2
        simp only [List.lookup, hk]
        exact ih

theorem lookup_mapInsert {β : Type} (m : List (Nat × β)) (k key : Nat) (v : β) :
    (mapInsert m k v).lookup key = if key = k then some v else m.lookup key := by
  unfold mapInsert
  by_cases h : key = k
  · subst h
    simp [List.lookup]
  · rw [if_neg h]
    have hk : (key == k) = false := beq_eq_false_iff_ne.mpr h
    simp only [List.lookup, hk]
    exact lookup_filter_ne m k key h

theorem lookup_insertRangeAux (v : Nat) :
    ∀ (n i : Nat) (m : List (Nat × Nat)) (key : Nat),
      (insertRangeAux v i n m).lookup key =
        if i ≤ key ∧ key < i + n then some v else m.lookup key := by
  intro n
  induction n with
  | zero =>
    intro i m key
    rw [if_neg (by omega)]
    rfl
  | succ n ih =>
    intro i m key
    unfold insertRangeAux
    rw [ih (i + 1)]
    by_cases h : i + 1 ≤ key ∧ key < i + 1 + n
    · rw [if_pos h, if_pos (by omega)]
    · rw [if_neg h, lookup_mapInsert]
      by_cases hk : key = i
      · rw [if_pos hk, if_pos (by omega)]
      · rw [if_neg hk, if_neg (by omega)]

theorem lookup_insertRange (m : List (Nat × Nat)) (place bend idx key : Nat) :
    (insertRange m place bend idx).lookup key =
      if place ≤ key ∧ key < bend then some idx else m.lookup key := by
  unfold insertRange
  rw [lookup_insertRangeAux]
  by_cases h : place ≤ key ∧ key < place + (bend - place)
  · rw [if_pos h, if_pos (by omega)]
  · rw [if_neg h, if_neg (by omega)]

theorem placeRel_ge (bs : List Block) :
    ∀ (place i : Nat),
      (∀ j, j < bs.length → placeRel place bs j ≤ blockStop bs j) →
      i ≤ bs.length → place ≤ placeRel place bs i := by
  induction bs with
  | nil =>
    intro place i _ _
    cases i <;> exact le_rfl
  | cons b rest ih =>
    intro place i hchain hi
    cases i with
    | zero => exact le_rfl
    | succ i =>
      have h0 : place ≤ b.bounds_stop := hchain 0 (by simp)
      have h1 := ih b.bounds_stop i (fun j hj => hchain (j + 1) (by simpa using hj))
        (by simpa using hi)
      calc place ≤ b.bounds_stop := h0
        _ ≤ placeRel b.bounds_stop rest i := h1

theorem lookup_calcBeatsGo_unscheduled (bs : List Block) :
    ∀ (place idx : Nat) (m : List (Nat × Nat)) (key : Nat),
      (∀ i, i < bs.length →
        ¬(placeRel place bs i ≤ key ∧ key < blockStop bs i)) →
      (calcBeatsGo bs place idx m).lookup key = m.lookup key := by
  induction bs with
  | nil =>
    intro place idx m key _
    rfl
  | cons b rest ih =>
    intro place idx m key h
    unfold calcBeatsGo
    rw [ih b.bounds_stop (idx + 1) _ key
      (fun i hi hc => h (i + 1) (by simpa using hi) hc)]
    rw [lookup_insertRange]
    rw [if_neg (show ¬(place ≤ key ∧ key < b.bounds_stop) from h 0 (by simp))]

theorem lookup_calcBeatsGo_scheduled (bs : List Block) :
    ∀ (place idx : Nat) (m : List (Nat × Nat)) (key i : Nat),
      (∀ j, j < bs.length → placeRel place bs j ≤ blockStop bs j) →
      i < bs.length → placeRel place bs i ≤ key → key < blockStop bs i →
      (calcBeatsGo bs place idx m).lookup key = some (idx + i) := by
  induction bs with
  | nil =>
    intro place idx m key i _ hi
    exact absurd hi (by simp)
  | cons b rest ih =>
    intro place idx m key i hchain hi h1 h2
    unfold calcBeatsGo
    cases i with
    | zero =>
      rw [lookup_calcBeatsGo_unscheduled rest b.bounds_stop (idx + 1) _ key ?_]
      · rw [lookup_insertRange, if_pos ⟨h1, h2⟩]
        simp
      · intro j hj hcontra
        have hge : b.bounds_stop ≤ placeRel b.bounds_stop rest j :=
          placeRel_ge rest b.bounds_stop j
            (fun j2 hj2 => hchain (j2 + 1) (by simpa using hj2)) (le_of_lt hj)
        have hlt : key < b.bounds_stop := h2
        have hc1 := hcontra.1
        omega
    | succ i =>
      rw [ih b.bounds_stop (idx + 1) (insertRange m place b.bounds_stop idx) key i
        (fun j hj => hchain (j + 1) (by simpa using hj)) (by simpa using hi) h1 h2]
      congr 1
      omega

/-- C9, counterexample to the claim as stated: adding the block `[2, 4)` to
an empty track recomputes the beat map, and that map sends beat `0` to
block index `0` although `blocks[0].bounds.start = 2 > 0` — the beat map
also covers the gap before a block's start (every beat from the previous
block's end on), so `beat_map[b] = i ⇔ start ≤ b < end` fails. -/
theorem C9_beat_map_counterexample :
    ((Track.mk [] []).add_block ⟨2, 4, 0, 0⟩).map
        (fun r => (r.1.beats.lookup 0, r.1.blocks.map Block.bounds_start)) =
      some (some 0, [2]) :=
  rfl

/-- C9 (amended): after a mutation recomputes the beat map of a track whose
blocks satisfy the track invariant (each block starts no earlier than the
previous block's end), `beat_map[b] = i` holds if and only if
`place_i ≤ b < blocks[i].bounds.end`, where `place_i` is the end of block
`i - 1` (`0` for the first block) — not `blocks[i].bounds.start ≤ b`; the
map is absent exactly outside these ranges.  (`get_block` re-checks
`b ≥ start`, which is what hides the gap entries from hit-testing.) -/
theorem C9_beat_map_characterization (t : Track)
    (hchain : ∀ j, j < t.blocks.length →
      placeRel 0 t.blocks j ≤ blockStop t.blocks j)
    (key j : Nat) :
    (t.calculate_beats).beats.lookup key = some j ↔
      (j < t.blocks.length ∧ placeRel 0 t.blocks j ≤ key ∧
        key < blockStop t.blocks j) := by
  unfold Track.calculate_beats
  dsimp only []
  constructor
  · intro h
    by_cases hex : ∃ i, i < t.blocks.length ∧ placeRel 0 t.blocks i ≤ key ∧
        key < blockStop t.blocks i
    · obtain ⟨i, hi, ha, hb⟩ := hex
      rw [lookup_calcBeatsGo_scheduled t.blocks 0 0 [] key i hchain hi ha hb] at h
      have heq := Option.some.inj h
      have hij : i = j := by omega
      subst hij
      exact ⟨hi, ha, hb⟩
    · rw [lookup_calcBeatsGo_unscheduled t.blocks 0 0 [] key
        (fun i hi hc => hex ⟨i, hi, hc.1, hc.2⟩)] at h
      exact Option.noConfusion h
  · rintro ⟨hj, ha, hb⟩
    rw [lookup_calcBeatsGo_scheduled t.blocks 0 0 [] key j hchain hj ha hb]
    simp

/-- Witness for C9 (amended): a two-block track `[0,2)`, `[3,5)`; beat `3`
maps to block `1`. -/
theorem C9_beat_map_characterization_witness :
    (Track.calculate_beats ⟨[], [⟨0, 2, 0, 0⟩, ⟨3, 5, 0, 1⟩]⟩).beats.lookup 3 =
      some 1 :=
  (C9_beat_map_characterization ⟨[], [⟨0, 2, 0, 0⟩, ⟨3, 5, 0, 1⟩]⟩
    (by decide) 3 1).mpr (by decide)

/-! ## Claim C5 -/

theorem getD_set_self (l : List Rat) (a : Rat) (i : Nat) (h : i < l.length) :
    (l.set i a).getD i 0 = a := by
  rw [List.getD_eq_getElem?_getD, List.getElem?_set_self h]
  rfl

theorem getD_set_ne (l : List Rat) (a : Rat) (i j : Nat) (h : i ≠ j) :
    (l.set i a).getD j 0 = l.getD j 0 := by
  rw [List.getD_eq_getElem?_getD, List.getElem?_set_ne h, ← List.getD_eq_getElem?_getD]

/-- The total multiplier the fade loop applies to index `j` during
iterations `i, i+1, …, fraction-1`: the fade-in factor when `j` is still to
be visited as a front index, times the fade-out factor when `len - 1 - j`
is still to be visited as an iteration count. -/
def fadeMulFrom (fraction len i j : Nat) : Rat :=
  (if i ≤ j ∧ j < fraction then (j : Rat) / (fraction : Rat) else 1) *
  (if i ≤ len - 1 - j ∧ len - 1 - j < fraction then
      ((len - 1 - j : Nat) : Rat) / (fraction : Rat) else 1)

/-- The multiplier the whole fade loop applies to index `j`. -/
def fadeMul (fraction len j : Nat) : Rat :=
  fadeMulFrom fraction len 0 j

theorem fadeIterAux_spec (fraction len : Nat) (hfl : fraction ≤ len) :
    ∀ (fuel i : Nat) (s : List Rat), s.length = len → i + fuel = fraction →
      ∃ r, AudioClip.fadeIterAux fraction len fuel i s = some r ∧ r.length = len ∧
        ∀ j, j < len → r.getD j 0 = s.getD j 0 * fadeMulFrom fraction len i j := by
  intro fuel
  induction fuel with
  | zero =>
    intro i s hlen hif
    refine ⟨s, rfl, hlen, fun j hj => ?_⟩
    unfold fadeMulFrom
    rw [if_neg (show ¬(i ≤ j ∧ j < fraction) by omega),
      if_neg (show ¬(i ≤ len - 1 - j ∧ len - 1 - j < fraction) by omega)]
    ring
  | succ fuel ih =>
    intro i s hlen hif
    have hilt : i < len := by omega
    have hifr : i < fraction := by omega
    simp only [AudioClip.fadeIterAux]
    rw [if_pos hilt]
    obtain ⟨r, hr, hrlen, hrval⟩ := ih (i + 1)
      ((s.set i (s.getD i 0 * ((i : Rat) / (fraction : Rat)))).set (len - i - 1)
        ((s.set i (s.getD i 0 * ((i : Rat) / (fraction : Rat)))).getD (len - i - 1) 0 *
          ((i : Rat) / (fraction : Rat))))
      (by simp [List.length_set, hlen]) (by omega)
    refine ⟨r, hr, hrlen, fun j hj => ?_⟩
    rw [hrval j hj]
    set m : Rat := (i : Rat) / (fraction : Rat) with hm
    set s1 : List Rat := s.set i (s.getD i 0 * m) with hs1
    have hlen1 : s1.length = len := by rw [hs1, List.length_set, hlen]
    have e1 : s1.getD i 0 = s.getD i 0 * m := by
      rw [hs1]
      exact getD_set_self s _ i (by omega)
    by_cases hji : j = i
    · subst hji
      by_cases hmid : j = len - j - 1
      · rw [← hmid]
        rw [getD_set_self _ _ _ (by omega)]
        rw [e1]
        have hA : fadeMulFrom fraction len (j + 1) j = 1 := by
          unfold fadeMulFrom
          rw [if_neg (show ¬(j + 1 ≤ j ∧ j < fraction) by omega),
            if_neg (show ¬(j + 1 ≤ len - 1 - j ∧ len - 1 - j < fraction) by omega)]
          ring
        have hB : fadeMulFrom fraction len j j = m * m := by
          unfold fadeMulFrom
          rw [if_pos (show j ≤ j ∧ j < fraction from ⟨le_rfl, hifr⟩),
            if_pos (show j ≤ len - 1 - j ∧ len - 1 - j < fraction by omega),
            show len - 1 - j = j from by omega, ← hm]
        rw [hA, hB]
        ring
      · rw [getD_set_ne _ _ _ _ (show len - j - 1 ≠ j by omega)]
        rw [e1]
        have hsecond : (if j + 1 ≤ len - 1 - j ∧ len - 1 - j < fraction then
              ((len - 1 - j : Nat) : Rat) / (fraction : Rat) else 1) =
            (if j ≤ len - 1 - j ∧ len - 1 - j < fraction then
              ((len - 1 - j : Nat) : Rat) / (fraction : Rat) else 1) := by
          by_cases hc : j + 1 ≤ len - 1 - j ∧ len - 1 - j < fraction
          · rw [if_pos hc, if_pos (by omega)]
          · rw [if_neg hc, if_neg (show ¬(j ≤ len - 1 - j ∧ len - 1 - j < fraction) by omega)]
        unfold fadeMulFrom
        rw [if_neg (show ¬(j + 1 ≤ j ∧ j < fraction) by omega),
          if_pos (show j ≤ j ∧ j < fraction from ⟨le_rfl, hifr⟩), hsecond, ← hm]
        ring
    · by_cases hjmid : j = len - i - 1
      · subst hjmid
        rw [getD_set_self _ _ _ (by omega)]
        rw [show s1.getD (len - i - 1) 0 = s.getD (len - i - 1) 0 from by
          rw [hs1]; exact getD_set_ne _ _ _ _ (fun hx => hji hx.symm)]
        have hfirst : (if i + 1 ≤ len - i - 1 ∧ len - i - 1 < fraction then
              ((len - i - 1 : Nat) : Rat) / (fraction : Rat) else 1) =
            (if i ≤ len - i - 1 ∧ len - i - 1 < fraction then
              ((len - i - 1 : Nat) : Rat) / (fraction : Rat) else 1) := by
          by_cases hc : i + 1 ≤ len - i - 1 ∧ len - i - 1 < fraction
          · rw [if_pos hc, if_pos (by omega)]
          · rw [if_neg hc,
              if_neg (show ¬(i ≤ len - i - 1 ∧ len - i - 1 < fraction) by omega)]
        unfold fadeMulFrom
        rw [show len - 1 - (len - i - 1) = i from by omega]
        rw [if_pos (show i ≤ i ∧ i < fraction from ⟨le_rfl, hifr⟩),
          if_neg (show ¬(i + 1 ≤ i ∧ i < fraction) by omega), hfirst, ← hm]
        ring
      · rw [getD_set_ne _ _ _ _ (fun hx => hjmid hx.symm)]
        rw [show s1.getD j 0 = s.getD j 0 from by
          rw [hs1]; exact getD_set_ne _ _ _ _ (fun hx => hji hx.symm)]
        have hfirst : (if i + 1 ≤ j ∧ j < fraction then (j : Rat) / (fraction : Rat) else 1) =
            (if i ≤ j ∧ j < fraction then (j : Rat) / (fraction : Rat) else 1) := by
          by_cases hc : i + 1 ≤ j ∧ j < fraction
          · rw [if_pos hc, if_pos (by omega)]
          · rw [if_neg hc, if_neg (show ¬(i ≤ j ∧ j < fraction) by omega)]
        have hsecond : (if i + 1 ≤ len - 1 - j ∧ len - 1 - j < fraction then
              ((len - 1 - j : Nat) : Rat) / (fraction : Rat) else 1) =
            (if i ≤ len - 1 - j ∧ len - 1 - j < fraction then
              ((len - 1 - j : Nat) : Rat) / (fraction : Rat) else 1) := by
          by_cases hc : i + 1 ≤ len - 1 - j ∧ len - 1 - j < fraction
          · rw [if_pos hc, if_pos (by omega)]
          · rw [if_neg hc,
              if_neg (show ¬(i ≤ len - 1 - j ∧ len - 1 - j < fraction) by omega)]
        unfold fadeMulFrom
        rw [hfirst, hsecond]

/-- Multiply each element by a factor of its index, starting at index `j` —
evaluation helper for the spec-side fade below. -/
def applyFadeFrom (factor : Nat → Rat) : Nat → List Rat → List Rat
  | _, [] => []
  | j, x :: rest => x * factor j :: applyFadeFrom factor (j + 1) rest

/-- Modelled from the spec for the C5 comparison: the fade multiplier the
spec's words prescribe — a linear fade-in over the first `sample_rate/100`
samples OF EACH CHANNEL and a fade-out over the last `sample_rate/100`
samples of each channel, where sample `k = j / channels` of a channel is
frame `k` of the interleaved buffer of `frames` frames. -/
def specFadeMulPerChannel (fraction frames channels j : Nat) : Rat :=
  (if j / channels < fraction then ((j / channels : Nat) : Rat) / (fraction : Rat) else 1) *
  (if frames - 1 - j / channels < fraction then
      ((frames - 1 - j / channels : Nat) : Rat) / (fraction : Rat) else 1)

/-- Modelled from the spec for the C5 comparison: `finalize()` as the
spec's words describe it — truncate to a whole frame, then fade per
channel. -/
def cleanSpecPerChannel (c : AudioClip) : List Rat :=
  let t := c.samples.take (c.samples.length - c.samples.length % c.format.channels)
  applyFadeFrom
    (fun j => specFadeMulPerChannel (c.format.sample_rate / 100)
      (t.length / c.format.channels) c.format.channels j) 0 t

/-- C5, counterexample to the claim as stated: on a stereo clip
(`channels = 2`, `sample_rate = 200`, eight samples of value `1`) the code
fades the first and last `sample_rate/100 = 2` INTERLEAVED samples
(result `[0, 1/2, 1, 1, 1, 1, 1/2, 0]`), not the first and last two
samples of each channel as the claim states (which would give
`[0, 0, 1/2, 1/2, 1/2, 1/2, 0, 0]`); they differ at index 2. -/
theorem C5_per_channel_counterexample :
    (AudioClip.clean ⟨⟨200, 0, 2, 2⟩, [1, 1, 1, 1, 1, 1, 1, 1]⟩).map
        AudioClip.samples ≠
      some (cleanSpecPerChannel ⟨⟨200, 0, 2, 2⟩, [1, 1, 1, 1, 1, 1, 1, 1]⟩) := by
  norm_num [AudioClip.clean, AudioClip.fadeLoop, AudioClip.fadeIterAux,
    cleanSpecPerChannel, applyFadeFrom, specFadeMulPerChannel]

/-- C5 (amended): for every clip whose truncated length is at least
`sample_rate/100`, `clean` first truncates `samples` to a whole frame (so
`samples.len() % channels = 0` afterwards) and then applies the linear fade
to the first and last `sample_rate/100` INTERLEAVED samples (about
`(sample_rate/100)/channels` frames per end, not `sample_rate/100` samples
of each channel): sample `j` of the result is sample `j` of the truncated
buffer times `fadeMul`, the fade-in factor `j/fraction` for `j < fraction`
times the fade-out factor `(len-1-j)/fraction` for `len-1-j < fraction`. -/
theorem C5_clean_fade (c : AudioClip) (hch : c.format.channels ≠ 0)
    (hfit : c.format.sample_rate / 100 ≤
      c.samples.length - c.samples.length % c.format.channels) :
    ∃ r, c.clean = some r ∧ r.format = c.format ∧
      r.samples.length = c.samples.length - c.samples.length % c.format.channels ∧
      r.samples.length % c.format.channels = 0 ∧
      ∀ j, j < r.samples.length →
        r.samples.getD j 0 =
          (c.samples.take
            (c.samples.length - c.samples.length % c.format.channels)).getD j 0 *
            fadeMul (c.format.sample_rate / 100) r.samples.length j := by
  have htl : (c.samples.take
      (c.samples.length - c.samples.length % c.format.channels)).length =
      c.samples.length - c.samples.length % c.format.channels := by
    rw [List.length_take]
    exact Nat.min_eq_left (Nat.sub_le _ _)
  obtain ⟨r, hr, hrlen, hrval⟩ := fadeIterAux_spec (c.format.sample_rate / 100)
    (c.samples.length - c.samples.length % c.format.channels) hfit
    (c.format.sample_rate / 100) 0
    (c.samples.take (c.samples.length - c.samples.length % c.format.channels))
    htl (by omega)
  have hsz : (c.samples.length - c.samples.length % c.format.channels) %
      c.format.channels = 0 := by
    have hdm := Nat.div_add_mod c.samples.length c.format.channels
    rw [show c.samples.length - c.samples.length % c.format.channels =
      c.format.channels * (c.samples.length / c.format.channels) from by omega]
    exact Nat.mul_mod_right _ _
  refine ⟨{ c with samples := r }, ?_, rfl, hrlen, ?_, ?_⟩
  · unfold AudioClip.clean
    rw [if_neg hch]
    dsimp only []
    unfold AudioClip.fadeLoop
    rw [htl, hr]
    rfl
  · rw [show ({ c with samples := r } : AudioClip).samples = r from rfl, hrlen]
    exact hsz
  · intro j hj
    rw [show ({ c with samples := r } : AudioClip).samples = r from rfl] at hj ⊢
    rw [hrlen] at hj
    rw [hrval j hj]
    unfold fadeMul
    rw [hrlen]

/-- Witness for C5 (amended) at the stereo clip of the counterexample:
interleaved index 1 of the cleaned clip carries the fade-in factor `1/2`. -/
theorem C5_clean_fade_witness :
    (AudioClip.clean ⟨⟨200, 0, 2, 2⟩, [1, 1, 1, 1, 1, 1, 1, 1]⟩).map
        (fun r => r.samples.getD 1 0) = some (1/2) := by
  obtain ⟨r, hr, -, hlen, -, hpt⟩ :=
    C5_clean_fade ⟨⟨200, 0, 2, 2⟩, [1, 1, 1, 1, 1, 1, 1, 1]⟩ (by decide) (by decide)
  rw [hr, Option.map_some']
  have h1 := hpt 1 (by rw [hlen]; decide)
  rw [h1, hlen]
  norm_num [fadeMul, fadeMulFrom]

end Musix
